import Mathlib

/-
  Verification development for the stream-magic-mcp UPnP/DLNA control point.

  The Python sources (src/streammagic_mcp/discovery.py, dlna.py, server.py)
  are shallowly embedded below.  Strings are modelled as `List Char`; Python
  `str` operations (`replace`, `startswith`, `endswith`, `in`, `lower`,
  `rstrip`, truthiness, `int()`) are modelled by executable Lean functions.
-/

namespace StreamMagic

/-- Characters of a Lean string literal, used to write concrete Python strings. -/
def chars (s : String) : List Char := s.data

/-- Models Python `str.lower()` (ASCII case folding, which covers the data here). -/
def toLowerL (l : List Char) : List Char := l.map Char.toLower

/-- Models Python truthiness of an `Optional[str]`: `None` and `""` are falsy. -/
def pyTruthy : Option (List Char) → Bool
  | none => false
  | some s => !s.isEmpty

/-- Models Python `sub in s` (substring containment). -/
def hasSub : List Char → List Char → Bool
  | [], sub => sub.isEmpty
  | c :: t, sub => sub.isPrefixOf (c :: t) || hasSub t sub

/-- Worker for Python `str.replace`: replaces every non-overlapping occurrence
of `o :: ot` from the left by `new`.  While `skip` is positive, characters are
consumed without scanning — this silently passes over the tail of an
occurrence that has just been replaced, keeping the recursion structural on
the list. -/
def replaceGo (o : Char) (ot new : List Char) : Nat → List Char → List Char
  | _ + 1, [] => []
  | skip + 1, _ :: rest => replaceGo o ot new skip rest
  | 0, [] => []
  | 0, c :: rest =>
    if (o :: ot).isPrefixOf (c :: rest) then
      new ++ replaceGo o ot new ot.length rest
    else
      c :: replaceGo o ot new 0 rest

/-- Models Python `s.replace(old, new)` for nonempty `old` (the code below only
replaces nonempty hostname/netloc strings; CPython's empty-pattern interspersal
never arises there). -/
def pyReplace (s old new : List Char) : List Char :=
  match old with
  | [] => s
  | o :: ot => replaceGo o ot new 0 s

/-- Characters allowed in a URL scheme by `urllib.parse`. -/
def schemeChar (c : Char) : Bool := c.isAlphanum || c = '+' || c = '-' || c = '.'

/-- Worker for scheme splitting: scans for the first `:` over scheme characters. -/
def splitSchemeAux (acc : List Char) : List Char → Option (List Char × List Char)
  | [] => none
  | c :: rest =>
    if c = ':' then
      match acc.reverse with
      | [] => none
      | a :: as_ => if a.isAlpha then some ((a :: as_), rest) else none
    else if schemeChar c then splitSchemeAux (c :: acc) rest
    else none

/-- Splits `scheme:rest` as `urllib.parse.urlsplit` does (scheme must start with
a letter and consist of scheme characters). -/
def splitScheme (u : List Char) : Option (List Char × List Char) :=
  splitSchemeAux [] u

/-- Characters terminating the netloc in `urllib.parse`. -/
def stopChar (c : Char) : Bool := c = '/' || c = '?' || c = '#'

/-- Parsed URL components: scheme, authority, and the remainder
(path + query + fragment), as split by `urllib.parse.urlsplit`. -/
structure UrlParts where
  scheme : List Char
  netloc : List Char
  rest : List Char
deriving DecidableEq, Repr

/-- Models `urllib.parse.urlsplit` for the URL shapes handled by the code
(no IPv6 brackets). -/
def urlsplitL (u : List Char) : UrlParts :=
  match splitScheme u with
  | some (sch, r) =>
    if r.take 2 = ['/', '/'] then
      { scheme := toLowerL sch
        netloc := (r.drop 2).takeWhile (fun c => !stopChar c)
        rest := (r.drop 2).dropWhile (fun c => !stopChar c) }
    else
      { scheme := toLowerL sch, netloc := [], rest := r }
  | none =>
    if u.take 2 = ['/', '/'] then
      { scheme := []
        netloc := (u.drop 2).takeWhile (fun c => !stopChar c)
        rest := (u.drop 2).dropWhile (fun c => !stopChar c) }
    else
      { scheme := [], netloc := [], rest := u }

/-- Part of a netloc after its last `@` (the whole netloc when there is none),
as in `netloc.rpartition('@')`. -/
def afterLastAt (l : List Char) : List Char :=
  l.foldl (fun acc c => if c = '@' then [] else acc ++ [c]) []

/-- Part of a hostinfo before its first `:`, as in `hostinfo.partition(':')`. -/
def beforeColon : List Char → List Char
  | [] => []
  | c :: r => if c = ':' then [] else c :: beforeColon r

/-- Models `urllib.parse` `.hostname` on a netloc: strip userinfo, strip the
port, lowercase; empty gives `None`. -/
def hostnameOf (netloc : List Char) : Option (List Char) :=
  let h := toLowerL (beforeColon (afterLastAt netloc))
  if h.isEmpty then none else some h

/-- Models the LOCATION address-correction block of
`SSDPProtocol.datagram_received` (discovery.py lines 76-86): when the parsed
hostname is truthy and differs from the packet source address, the netloc gets
the hostname substring-replaced by the source address, and the whole location
gets the netloc substring-replaced by the new netloc. -/
def rewriteLocation (location host : List Char) : List Char :=
  match hostnameOf (urlsplitL location).netloc with
  | none => location
  | some hn =>
    if hn ≠ host then
      pyReplace location (urlsplitL location).netloc
        (pyReplace (urlsplitL location).netloc hn host)
    else
      location

/-- A clean lowercase hostname: nonempty, free of netloc terminators, `@`, `:`,
and fixed under lowercasing. -/
def hostOkB (l : List Char) : Bool :=
  !l.isEmpty && l.all fun c => !stopChar c && !(c = '@') && !(c = ':') && (c.toLower = c)

/-- A clean optional port part of a netloc: empty, or a `:` followed by
characters free of netloc terminators, `@` and `:`. -/
def portOkB : List Char → Bool
  | [] => true
  | c :: ds => (c = ':') && ds.all fun d => !stopChar d && !(d = '@') && !(d = ':')

/-- No occurrence of `old` starts within the first `n` positions of the list. -/
def noMatchBefore (old : List Char) : List Char → Nat → Bool
  | _, 0 => true
  | [], _ + 1 => true
  | c :: t, n + 1 => !(old.isPrefixOf (c :: t)) && noMatchBefore old t n

/-! ### SSDP discovery: device records and deduplication (discovery.py) -/

/-- One SSDP reply record as appended by `SSDPProtocol.datagram_received`. -/
structure Device where
  host : String
  location : String
  usn : String
  server : String
deriving DecidableEq, Repr

/-- The dedup key of `SSDPDiscovery._unique_devices`:
`d.get('usn') or (d['host'] + d.get('location', ''))` — the USN when truthy,
else host concatenated with location. -/
def devKey (d : Device) : String :=
  if d.usn ≠ "" then d.usn else d.host ++ d.location

/-- Whether an association list (modelling the Python dict in insertion order)
already holds a key. -/
def hasKey (m : List (String × Device)) (k : String) : Bool :=
  m.any (fun p => p.1 == k)

/-- One step of `_unique_devices`: `if key not in unique: unique[key] = d`. -/
def insertUnique (m : List (String × Device)) (d : Device) : List (String × Device) :=
  if hasKey m (devKey d) then m else m ++ [(devKey d, d)]

/-- Models `SSDPDiscovery._unique_devices`: build the insertion-ordered dict and
return `list(unique.values())`. -/
def uniqueDevices (ds : List Device) : List Device :=
  (ds.foldl insertUnique []).map Prod.snd

/-- Reference form of first-seen deduplication: keep each element whose key has
not appeared earlier, in order of first sighting. -/
def dedupFirst : List Device → List Device
  | [] => []
  | d :: rest => d :: dedupFirst (rest.filter fun e => !(devKey e == devKey d))
termination_by l => l.length
decreasing_by
  simp only [List.length_cons]
  exact Nat.lt_succ_of_le (List.length_filter_le _ _)

/-! ### SOAP envelope construction (dlna.py) -/

/-- Models `html.escape(s, quote=True)` on one character (the sequential
`str.replace` calls in CPython's `html.escape` amount to this per-character
substitution, since no replacement output contains a later-replaced character
that was not already consumed). -/
def escChar (c : Char) : List Char :=
  if c = '&' then chars "&amp;"
  else if c = '<' then chars "&lt;"
  else if c = '>' then chars "&gt;"
  else if c = '"' then chars "&quot;"
  else if c = '\'' then chars "&#x27;"
  else [c]

/-- Models Python `html.escape(s, quote=True)`. -/
def htmlEscape (l : List Char) : List Char := (l.map escChar).flatten

/-- Whether `r` starts with the tail of one of the five entities produced by
`html.escape`. -/
def entityTail (r : List Char) : Bool :=
  (chars "amp;").isPrefixOf r || (chars "lt;").isPrefixOf r ||
  (chars "gt;").isPrefixOf r || (chars "quot;").isPrefixOf r ||
  (chars "#x27;").isPrefixOf r

/-- Well-escaped XML text content: no raw `<`, `>`, quote characters, and every
`&` begins one of the escape entities.  Such text never breaks the
well-formedness of the surrounding envelope. -/
def wellEscapedText : List Char → Bool
  | [] => true
  | c :: r =>
    if c = '<' || c = '>' || c = '"' || c = '\'' then false
    else if c = '&' then entityTail r && wellEscapedText r
    else wellEscapedText r

/-- Text of the Browse envelope before the interpolated ObjectID
(dlna.py lines 112-116). -/
def browsePre : List Char :=
  chars "<?xml version=\"1.0\"?>\n        <s:Envelope xmlns:s=\"http://schemas.xmlsoap.org/soap/envelope/\" s:encodingStyle=\"http://schemas.xmlsoap.org/soap/encoding/\">\n            <s:Body>\n                <u:Browse xmlns:u=\"urn:schemas-upnp-org:service:ContentDirectory:1\">\n                    <ObjectID>"

/-- Text of the Browse envelope between ObjectID and StartingIndex. -/
def browseMid1 : List Char :=
  chars "</ObjectID>\n                    <BrowseFlag>BrowseDirectChildren</BrowseFlag>\n                    <Filter>*</Filter>\n                    <StartingIndex>"

/-- Text of the Browse envelope between StartingIndex and RequestedCount. -/
def browseMid2 : List Char :=
  chars "</StartingIndex>\n                    <RequestedCount>"

/-- Text of the Browse envelope after RequestedCount. -/
def browseSuf : List Char :=
  chars "</RequestedCount>\n                    <SortCriteria></SortCriteria>\n                </u:Browse>\n            </s:Body>\n        </s:Envelope>"

/-- Models the f-string of `DlnaClient.browse` (dlna.py lines 112-124): the
ObjectID is interpolated verbatim, the indices as their decimal form. -/
def buildBrowseBody (objectId : List Char) (startIndex count : Int) : List Char :=
  browsePre ++ objectId ++ browseMid1 ++ chars (toString startIndex) ++
    browseMid2 ++ chars (toString count) ++ browseSuf

/-- Text of the Search envelope before the interpolated SearchCriteria
(dlna.py lines 155-160). -/
def searchPre : List Char :=
  chars "<?xml version=\"1.0\"?>\n        <s:Envelope xmlns:s=\"http://schemas.xmlsoap.org/soap/envelope/\" s:encodingStyle=\"http://schemas.xmlsoap.org/soap/encoding/\">\n            <s:Body>\n                <u:Search xmlns:u=\"urn:schemas-upnp-org:service:ContentDirectory:1\">\n                    <ContainerID>0</ContainerID>\n                    <SearchCriteria>"

/-- Text of the Search envelope between SearchCriteria and StartingIndex. -/
def searchMid1 : List Char :=
  chars "</SearchCriteria>\n                    <Filter>*</Filter>\n                    <StartingIndex>"

/-- Text of the Search envelope between StartingIndex and RequestedCount. -/
def searchMid2 : List Char :=
  chars "</StartingIndex>\n                    <RequestedCount>"

/-- Text of the Search envelope after RequestedCount. -/
def searchSuf : List Char :=
  chars "</RequestedCount>\n                    <SortCriteria></SortCriteria>\n                </u:Search>\n            </s:Body>\n        </s:Envelope>"

/-- Models the f-string of `DlnaClient.search` (dlna.py lines 152-167): the
criteria are interpolated as `html.escape(search_criteria)`. -/
def buildSearchBody (criteria : List Char) (startIndex count : Int) : List Char :=
  searchPre ++ htmlEscape criteria ++ searchMid1 ++ chars (toString startIndex) ++
    searchMid2 ++ chars (toString count) ++ searchSuf

/-- Text of the SetAVTransportURI envelope before the interpolated URI
(dlna.py lines 269-274). -/
def setUriPre : List Char :=
  chars "<?xml version=\"1.0\"?>\n        <s:Envelope xmlns:s=\"http://schemas.xmlsoap.org/soap/envelope/\" s:encodingStyle=\"http://schemas.xmlsoap.org/soap/encoding/\">\n            <s:Body>\n                <u:SetAVTransportURI xmlns:u=\"urn:schemas-upnp-org:service:AVTransport:1\">\n                    <InstanceID>0</InstanceID>\n                    <CurrentURI>"

/-- Text of the SetAVTransportURI envelope between URI and metadata. -/
def setUriMid : List Char :=
  chars "</CurrentURI>\n                    <CurrentURIMetaData>"

/-- Text of the SetAVTransportURI envelope after the metadata. -/
def setUriSuf : List Char :=
  chars "</CurrentURIMetaData>\n                </u:SetAVTransportURI>\n            </s:Body>\n        </s:Envelope>"

/-- Models the f-string of `DlnaClient.set_av_transport_uri` (dlna.py lines
265-278): both the URI and the metadata are interpolated as `html.escape`d. -/
def buildSetUriBody (uri metadata : List Char) : List Char :=
  setUriPre ++ htmlEscape uri ++ setUriMid ++ htmlEscape metadata ++ setUriSuf

/-! ### Description resolution (DlnaClient.initialize, dlna.py) -/

/-- Models Python `s.rstrip('/')`: strip every trailing slash. -/
def rstripSlash (l : List Char) : List Char :=
  (l.reverse.dropWhile (fun c => c = '/')).reverse

/-- An XML element as seen through ElementTree: its (namespace-expanded) tag
and its `.text` (`None` when the element has no text). -/
structure XNode where
  tag : List Char
  text : Option (List Char)
deriving DecidableEq, Repr

/-- A `service`-tagged element of the description document: the code only looks
at its direct children. -/
structure SvcElem where
  children : List XNode
deriving DecidableEq, Repr

/-- A parsed description document, as the `initialize` code observes it:
the friendlyName text found by the lenient lookup (`none` when the element is
absent or textless), the URLBase text likewise, and every element of the
document whose tag ends in `"service"`, in document order. -/
structure Description where
  friendlyName : Option (List Char)
  urlBase : Option (List Char)
  services : List SvcElem
deriving DecidableEq, Repr

/-- The mutable fields of a `DlnaClient` instance. -/
structure ClientState where
  location : List Char
  contentDirectoryUrl : Option (List Char)
  avTransportUrl : Option (List Char)
  friendlyName : List Char
  baseUrl : List Char
deriving DecidableEq, Repr

/-- A fresh `DlnaClient(location)` (dlna.py `__init__`). -/
def mkClient (location : List Char) : ClientState :=
  { location := location
    contentDirectoryUrl := none
    avTransportUrl := none
    friendlyName := chars "Unknown Device"
    baseUrl := [] }

/-- Models the base-URL computation of `initialize` (dlna.py lines 61-68):
`scheme://netloc` of the location, overridden by a truthy `URLBase` text with
trailing slashes stripped. -/
def computeBaseUrl (location : List Char) (urlBase : Option (List Char)) : List Char :=
  let params := urlsplitL location
  let dflt := params.scheme ++ chars "://" ++ params.netloc
  match urlBase with
  | some t => if !t.isEmpty then rstripSlash t else dflt
  | none => dflt

/-- Models the controlURL normalization of `initialize` (dlna.py lines 86-90):
values not starting with the four characters `"http"` are joined to the base
URL, with a `/` inserted unless already present. -/
def normalizeCtrl (base ctrl : List Char) : List Char :=
  if !((chars "http").isPrefixOf ctrl) then
    if (chars "/").isPrefixOf ctrl then base ++ ctrl
    else base ++ chars "/" ++ ctrl
  else ctrl

/-- Models the child scan of one service element (dlna.py lines 78-82):
last truthy `serviceType` text and last truthy `controlURL` text. -/
def svcFields (svc : SvcElem) : Option (List Char) × Option (List Char) :=
  svc.children.foldl
    (fun acc child =>
      if (chars "serviceType").isSuffixOf child.tag && pyTruthy child.text then
        (child.text, acc.2)
      else if (chars "controlURL").isSuffixOf child.tag && pyTruthy child.text then
        (acc.1, child.text)
      else acc)
    (none, none)

/-- Models the classification of one service (dlna.py lines 84-97): when both
texts are truthy, normalize the control URL and store it under the
ContentDirectory or AVTransport endpoint by substring match on the type. -/
def procService (base : List Char)
    (acc : Option (List Char) × Option (List Char)) (svc : SvcElem) :
    Option (List Char) × Option (List Char) :=
  match svcFields svc with
  | (some stText, some ctrlText) =>
    let ctrl := normalizeCtrl base ctrlText
    if hasSub stText (chars "ContentDirectory") then (some ctrl, acc.2)
    else if hasSub stText (chars "AVTransport") then (acc.1, some ctrl)
    else acc
  | _ => acc

/-- Models the body of a successful `initialize` run over an already-fetched
description document (dlna.py lines 44-97), applied to the client state. -/
def applyDoc (st : ClientState) (doc : Description) : ClientState :=
  let fn := match doc.friendlyName with
    | some t => if !t.isEmpty then t else st.friendlyName
    | none => st.friendlyName
  let base := computeBaseUrl st.location doc.urlBase
  let urls := doc.services.foldl (procService base)
    (st.contentDirectoryUrl, st.avTransportUrl)
  { st with friendlyName := fn, baseUrl := base,
            contentDirectoryUrl := urls.1, avTransportUrl := urls.2 }

/-- Models `DlnaClient.initialize` on a fetchable document: returns the state
after the call and the number of HTTP description fetches it performed.  The
guard is the code's `if self._content_directory_url: return` (dlna.py lines
33-34). -/
def resolveDesc (st : ClientState) (doc : Description) : ClientState × Nat :=
  if pyTruthy st.contentDirectoryUrl then (st, 0) else (applyDoc st doc, 1)

/-- A SOAP request as posted by the client: target control URL and body. -/
structure SoapRequest where
  url : List Char
  body : List Char
deriving DecidableEq, Repr

/-- Models `DlnaClient.set_av_transport_uri` up to the HTTP POST (dlna.py lines
256-278): lazily resolve when the AVTransport endpoint is not truthy, raise
when it is still unknown afterwards, otherwise build the SOAP request.  The
first component is the client state after the call (Python instance state
persists across the raised exception). -/
def lazyResolveAv (st : ClientState) (doc : Description) : ClientState :=
  if pyTruthy st.avTransportUrl then st else (resolveDesc st doc).1

def setAvTransportUri (st : ClientState) (doc : Description) (uri metadata : List Char) :
    ClientState × Except (List Char) SoapRequest :=
  if pyTruthy (lazyResolveAv st doc).avTransportUrl then
    (lazyResolveAv st doc,
      Except.ok { url := (lazyResolveAv st doc).avTransportUrl.getD [],
                  body := buildSetUriBody uri metadata })
  else
    (lazyResolveAv st doc, Except.error (chars "No AVTransport service found on device."))

/-! ### DIDL-Lite result decoding (DlnaClient._parse_didl_result, dlna.py) -/

/-- The decoded catalog entry (the `BrowsedItem` dataclass).  `upnp_class` is
held as an option: the dataclass annotates it `str` but the parser assigns it
`child.text`, which ElementTree may give as `None`. -/
structure BrowsedItem where
  id : List Char
  parent_id : List Char
  title : List Char
  upnp_class : Option (List Char)
  is_container : Bool
  res_url : Option (List Char)
  album_art : Option (List Char)
  artist : Option (List Char)
  album : Option (List Char)
deriving DecidableEq, Repr

/-- One direct child of the DIDL-Lite root: its tag, `id`/`parentID` attributes
(`attrib.get` defaults them to `""`), and its children. -/
structure DidlElem where
  tag : List Char
  id : List Char
  parentID : List Char
  children : List XNode
deriving DecidableEq, Repr

/-- The local accumulator variables of the child scan in `_parse_didl_result`
(dlna.py lines 217-238).  `title` and `upnpClass` start as `some []`, modelling
the Python initial value `""`; assignment stores `child.text` as is. -/
structure FieldAcc where
  title : Option (List Char)
  upnpClass : Option (List Char)
  resUrl : Option (List Char)
  art : Option (List Char)
  artist : Option (List Char)
  album : Option (List Char)
deriving DecidableEq, Repr

/-- Models the `for child in elem` scan (dlna.py lines 224-238): substring
matches on the raw child tag, in the source's `elif` order; `res` only assigns
while `res_url` is falsy. -/
def entryFields (cs : List XNode) : FieldAcc :=
  cs.foldl
    (fun acc child =>
      if hasSub child.tag (chars "title") then { acc with title := child.text }
      else if hasSub child.tag (chars "class") then { acc with upnpClass := child.text }
      else if hasSub child.tag (chars "res") then
        (if !pyTruthy acc.resUrl then { acc with resUrl := child.text } else acc)
      else if hasSub child.tag (chars "albumArtURI") then { acc with art := child.text }
      else if hasSub child.tag (chars "artist") then { acc with artist := child.text }
      else if hasSub child.tag (chars "album") then { acc with album := child.text }
      else acc)
    { title := some [], upnpClass := some [], resUrl := none,
      art := none, artist := none, album := none }

/-- Models the per-element decode (dlna.py lines 210-250): elements whose
lowercased tag contains `container` or `item` become a `BrowsedItem`; the title
is `title or "Unknown"`. -/
def parseEntry (e : DidlElem) : Option BrowsedItem :=
  let tag := toLowerL e.tag
  if hasSub tag (chars "container") || hasSub tag (chars "item") then
    let acc := entryFields e.children
    some
      { id := e.id
        parent_id := e.parentID
        title := match acc.title with
          | some t => if !t.isEmpty then t else chars "Unknown"
          | none => chars "Unknown"
        upnp_class := acc.upnpClass
        is_container := hasSub tag (chars "container")
        res_url := acc.resUrl
        album_art := acc.art
        artist := acc.artist
        album := acc.album }
  else none

/-- Models the decode of every direct child of the DIDL-Lite root. -/
def parseEntries (doc : List DidlElem) : List BrowsedItem :=
  doc.filterMap parseEntry

/-- Whether a character counts as whitespace for Python `int(str)`. -/
def isPySpace (c : Char) : Bool :=
  c = ' ' || c = '\t' || c = '\n' || c = '\r' || c = '\x0b' || c = '\x0c'

/-- Digit accumulation for Python `int(str)`: digits with single underscores
allowed between digits. -/
def parseDigitsAux (acc : Nat) : List Char → Option Nat
  | [] => some acc
  | '_' :: c :: rest =>
    if c.isDigit then parseDigitsAux (acc * 10 + (c.toNat - 48)) rest else none
  | '_' :: [] => none
  | c :: rest =>
    if c.isDigit then parseDigitsAux (acc * 10 + (c.toNat - 48)) rest else none

/-- Nonempty digit sequence for Python `int(str)`. -/
def parseDigits : List Char → Option Nat
  | [] => none
  | c :: rest => if c.isDigit then parseDigitsAux (c.toNat - 48) rest else none

/-- Models Python `int(str)` on decimal text: surrounding whitespace, one
optional sign, then digits; anything else raises (here: `none`). -/
def pyParseInt (l : List Char) : Option Int :=
  let t := (l.dropWhile isPySpace).reverse.dropWhile isPySpace |>.reverse
  match t with
  | '+' :: r => (parseDigits r).map (fun n => (n : Int))
  | '-' :: r => (parseDigits r).map (fun n => -(n : Int))
  | r => (parseDigits r).map (fun n => (n : Int))

/-- One step of the outer element scan of `_parse_didl_result` (dlna.py lines
193-201): remember the last truthy `*result` text; parse the last truthy
`*totalmatches` text as an integer, keeping the previous count on failure. -/
def scanStep (acc : Option (List Char) × Int) (e : XNode) :
    Option (List Char) × Int :=
  let tag := toLowerL e.tag
  if (chars "result").isSuffixOf tag && pyTruthy e.text then (e.text, acc.2)
  else if (chars "totalmatches").isSuffixOf tag && pyTruthy e.text then
    match pyParseInt (e.text.getD []) with
    | some n => (acc.1, n)
    | none => acc
  else acc

/-- Models the outer element scan of `_parse_didl_result` over `root.iter()`:
the captured Result text and the total-matches count (initially 0). -/
def scanSoap (elems : List XNode) : Option (List Char) × Int :=
  elems.foldl scanStep (none, 0)

/-- The Result-text capture alone, ignoring the count logic entirely. -/
def resultScan (elems : List XNode) : Option (List Char) :=
  elems.foldl
    (fun acc e =>
      if (chars "result").isSuffixOf (toLowerL e.tag) && pyTruthy e.text then e.text
      else acc)
    none

/-! ### server.py search_media_server post-filter -/

/-- A Python runtime value reachable by `for item in raw_items` in
`search_media_server`, where `raw_items` is the `(items, total)` tuple returned
by `DlnaClient.search`. -/
inductive PyObj where
  | item : BrowsedItem → PyObj
  | itemList : List BrowsedItem → PyObj
  | int : Int → PyObj
deriving DecidableEq, Repr

/-- The match test of the filter loop (server.py lines 277-279) on an actual
`BrowsedItem`: case-insensitive substring on title, artist, album (the latter
two guarded by truthiness). -/
def itemMatches (q : List Char) (it : BrowsedItem) : Bool :=
  hasSub (toLowerL it.title) q ||
  (match it.artist with
   | some a => !a.isEmpty && hasSub (toLowerL a) q
   | none => false) ||
  (match it.album with
   | some a => !a.isEmpty && hasSub (toLowerL a) q
   | none => false)

/-- Evaluating the loop body on one iterated value: attribute access `.title`
on a non-item raises `AttributeError`. -/
def filterStep (q : List Char) : PyObj → Except (List Char) Bool
  | PyObj.item it => Except.ok (itemMatches q it)
  | PyObj.itemList _ => Except.error (chars "'list' object has no attribute 'title'")
  | PyObj.int _ => Except.error (chars "'int' object has no attribute 'title'")

/-- The filter loop of `search_media_server` (server.py lines 274-282), over
whatever `for item in raw_items` yields. -/
def filterLoop (q : List Char) : List PyObj → Except (List Char) (List PyObj)
  | [] => Except.ok []
  | o :: rest =>
    match filterStep q o with
    | Except.error e => Except.error e
    | Except.ok b =>
      (filterLoop q rest).map (fun l => if b then o :: l else l)

/-- Models `search_media_server` from the point where `client.search` has
returned (server.py lines 270-289): `raw_items` is bound to the `(items,
total)` tuple, the loop iterates over the tuple's two elements, and any
exception is re-raised as `RuntimeError("Search failed. Error: ...")`. -/
def searchMediaServer (resp : List BrowsedItem × Int) (query : List Char) :
    Except (List Char) (List PyObj) :=
  match filterLoop (toLowerL query) [PyObj.itemList resp.1, PyObj.int resp.2] with
  | Except.ok l => Except.ok l
  | Except.error e => Except.error (chars "Search failed. Error: " ++ e)

/-- Modelled from the spec: the intended client-side post-filter — keep exactly
the decoded entries whose title, artist or album contains the query
case-insensitively (spec §4.5 Search and §8 end-to-end scenario). -/
def specSearchFilter (items : List BrowsedItem) (query : List Char) : List BrowsedItem :=
  items.filter (itemMatches (toLowerL query))

/-- An absolute http(s) URL in the sense of the specification. -/
def specAbsoluteHttp (s : List Char) : Bool :=
  (chars "http://").isPrefixOf s || (chars "https://").isPrefixOf s

/-- The title computation of `_parse_didl_result`: `title or "Unknown"`. -/
def titleOf (o : Option (List Char)) : List Char :=
  match o with
  | some t => if !t.isEmpty then t else chars "Unknown"
  | none => chars "Unknown"

/-- A DIDL item element carrying no title child. -/
def noTitleElem : DidlElem :=
  ⟨chars "item", chars "1", chars "0",
   [⟨chars "upnp:class", some (chars "object.item.audioItem")⟩]⟩

/-- The entry the decoder produces for `noTitleElem`. -/
def noTitleItem : BrowsedItem :=
  { id := chars "1"
    parent_id := chars "0"
    title := chars "Unknown"
    upnp_class := some (chars "object.item.audioItem")
    is_container := false
    res_url := none
    album_art := none
    artist := none
    album := none }

/-- One step of the Result-text capture alone. -/
def resStep (acc : Option (List Char)) (e : XNode) : Option (List Char) :=
  if (chars "result").isSuffixOf (toLowerL e.tag) && pyTruthy e.text then e.text
  else acc

/-- Whether the remainder part may legally follow a netloc: empty or opening
with a netloc-terminating character. -/
def restOkB : List Char → Bool
  | [] => true
  | c :: _ => stopChar c

/-- Whether a description document declares no AVTransport service (no service
element with both texts truthy and `"AVTransport"` in the type). -/
def noAvSvc (doc : Description) : Bool :=
  doc.services.all fun svc =>
    match svcFields svc with
    | (some stText, some _) => !(hasSub stText (chars "AVTransport"))
    | _ => true

/-! ### Shared concrete fixtures -/

/-- A sample description-document location. -/
def sampleLoc : List Char := chars "http://192.168.1.5:8200/desc.xml"

/-- A service element declaring a ContentDirectory service. -/
def cdSvc : SvcElem :=
  ⟨[⟨chars "serviceType", some (chars "urn:schemas-upnp-org:service:ContentDirectory:1")⟩,
    ⟨chars "controlURL", some (chars "/ctrl")⟩]⟩

/-- A description document declaring only a ContentDirectory service. -/
def cdOnlyDoc : Description :=
  ⟨some (chars "Test NAS"), none, [cdSvc]⟩

/-! ### C4: idempotent description resolution -/

/-- C4: once a resolve call has succeeded and set the ContentDirectory control
URL, a second resolve returns the state unchanged with zero fetches, so two
calls on a fresh resolver issue exactly one HTTP fetch. -/
theorem resolve_idempotent (st : ClientState) (doc doc2 : Description)
    (h0 : pyTruthy st.contentDirectoryUrl = false)
    (h1 : pyTruthy ((resolveDesc st doc).1.contentDirectoryUrl) = true) :
    resolveDesc ((resolveDesc st doc).1) doc2 = ((resolveDesc st doc).1, 0) ∧
    (resolveDesc st doc).2 + (resolveDesc ((resolveDesc st doc).1) doc2).2 = 1 := by
  have e1 : resolveDesc st doc = (applyDoc st doc, 1) := by
    simp [resolveDesc, h0]
  rw [e1] at h1 ⊢
  have e2 : resolveDesc (applyDoc st doc) doc2 = (applyDoc st doc, 0) := by
    simp only at h1
    simp [resolveDesc, h1]
  rw [e2]
  exact ⟨rfl, rfl⟩

/-- Witness for C4 at a concrete fresh client and document. -/
theorem resolve_idempotent_witness :
    resolveDesc ((resolveDesc (mkClient sampleLoc) cdOnlyDoc).1) cdOnlyDoc
      = ((resolveDesc (mkClient sampleLoc) cdOnlyDoc).1, 0) ∧
    (resolveDesc (mkClient sampleLoc) cdOnlyDoc).2 +
      (resolveDesc ((resolveDesc (mkClient sampleLoc) cdOnlyDoc).1) cdOnlyDoc).2 = 1 :=
  resolve_idempotent _ _ _ (by decide) (by decide)

/-! ### C6: controlURL normalization -/

/-- If an appended list is a list-prefix, so is its first part. -/
theorem isPrefixOf_of_append_left (a b l : List Char)
    (h : (a ++ b).isPrefixOf l = true) : a.isPrefixOf l = true := by
  induction a generalizing l with
  | nil => simp [List.isPrefixOf]
  | cons c t ih =>
    cases l with
    | nil => simp [List.isPrefixOf] at h
    | cons d l' =>
      simp only [List.cons_append, List.isPrefixOf, Bool.and_eq_true] at h ⊢
      exact ⟨h.1, ih l' h.2⟩

/-- C6 counterexample: the value `httpd/control` has no scheme and no leading
slash, so the claim requires it to be joined to the base URL; the code's
`startswith("http")` test leaves it unchanged instead. -/
theorem controlUrl_counterexample :
    normalizeCtrl (chars "http://10.0.0.1:8080") (chars "httpd/control") = chars "httpd/control" ∧
    splitScheme (chars "httpd/control") = none ∧
    (chars "/").isPrefixOf (chars "httpd/control") = false ∧
    specAbsoluteHttp (chars "httpd/control") = false ∧
    chars "httpd/control" ≠ chars "http://10.0.0.1:8080" ++ chars "/" ++ chars "httpd/control" := by
  decide

/-- C6 (amended): values starting with the four characters `http` (absolute
http/https URLs among them) are left unchanged; other values starting with `/`
are appended to the base URL; remaining values get a `/` inserted. -/
theorem controlUrl_normalization (base ctrl : List Char) :
    ((chars "http").isPrefixOf ctrl = false → (chars "/").isPrefixOf ctrl = true →
      normalizeCtrl base ctrl = base ++ ctrl) ∧
    ((chars "http").isPrefixOf ctrl = false → (chars "/").isPrefixOf ctrl = false →
      normalizeCtrl base ctrl = base ++ chars "/" ++ ctrl) ∧
    (specAbsoluteHttp ctrl = true → normalizeCtrl base ctrl = ctrl) := by
  refine ⟨fun h1 h2 => ?_, fun h1 h2 => ?_, fun h => ?_⟩
  · simp [normalizeCtrl, h1, h2]
  · simp [normalizeCtrl, h1, h2]
  · have hp : (chars "http").isPrefixOf ctrl = true := by
      rcases Bool.or_eq_true_iff.mp h with h' | h'
      · have e : chars "http://" = chars "http" ++ chars "://" := by decide
        exact isPrefixOf_of_append_left _ _ _ (e ▸ h')
      · have e : chars "https://" = chars "http" ++ chars "s://" := by decide
        exact isPrefixOf_of_append_left _ _ _ (e ▸ h')
    simp [normalizeCtrl, hp]

/-- Witness for C6 at the three shapes named by the claim. -/
theorem controlUrl_normalization_witness :
    normalizeCtrl (chars "http://h") (chars "/ctrl") = chars "http://h" ++ chars "/ctrl" ∧
    normalizeCtrl (chars "http://h") (chars "ctrl") = chars "http://h" ++ chars "/" ++ chars "ctrl" ∧
    normalizeCtrl (chars "http://h") (chars "http://x/ctrl") = chars "http://x/ctrl" :=
  ⟨(controlUrl_normalization _ _).1 (by decide) (by decide),
   (controlUrl_normalization _ _).2.1 (by decide) (by decide),
   (controlUrl_normalization _ _).2.2 (by decide)⟩

/-! ### C9: the search post-filter -/

/-- C9: `search_media_server` binds the `(items, total)` tuple returned by
`DlnaClient.search` to `raw_items` without unpacking it, so the filter loop
iterates over the tuple, hits `.title` on the item *list*, and every
successful search call is converted into `RuntimeError("Search failed. ...")`
— the intended post-filter (second conjunct) is never reached. -/
theorem search_post_filter_bug :
    (∀ (resp : List BrowsedItem × Int) (q : List Char),
        searchMediaServer resp q =
          Except.error (chars "Search failed. Error: 'list' object has no attribute 'title'")) ∧
    specSearchFilter
        [⟨chars "1", chars "0", chars "Jazz Classics", some (chars "object.container.album"), true,
          none, none, none, none⟩,
         ⟨chars "2", chars "0", chars "Rock Hits", some (chars "object.container.album"), true,
          none, none, none, none⟩]
        (chars "jazz")
      = [⟨chars "1", chars "0", chars "Jazz Classics", some (chars "object.container.album"), true,
          none, none, none, none⟩] := by
  refine ⟨fun resp q => rfl, by decide⟩

/-! ### C3: deduplication keeps the first-seen entry per key, in order -/

/-- String `==` is symmetric. -/
theorem strBeq_comm (a b : String) : (a == b) = (b == a) := by
  by_cases h : a = b
  · subst h; rfl
  · have h' : ¬b = a := fun e => h e.symm
    simp [beq_iff_eq, h, h']

/-- Key lookup distributes over appending one binding. -/
theorem hasKey_append_single (m : List (String × Device)) (k x : String) (d : Device) :
    hasKey (m ++ [(k, d)]) x = (hasKey m x || (k == x)) := by
  simp [hasKey, List.any_append]

/-- The dict-building fold of `_unique_devices` produces the already-collected
values followed by the first-seen dedup of the not-yet-seen remainder. -/
theorem foldl_insertUnique (ds : List Device) : ∀ acc : List (String × Device),
    (List.foldl insertUnique acc ds).map Prod.snd =
      acc.map Prod.snd ++ dedupFirst (ds.filter fun d => !(hasKey acc (devKey d))) := by
  induction ds with
  | nil => intro acc; simp [dedupFirst]
  | cons d rest ih =>
    intro acc
    simp only [List.foldl_cons, List.filter_cons]
    by_cases h : hasKey acc (devKey d) = true
    · have e : insertUnique acc d = acc := by simp [insertUnique, h]
      rw [e, ih acc]
      simp [h]
    · have hne : hasKey acc (devKey d) = false := by
        simpa using h
      have e : insertUnique acc d = acc ++ [(devKey d, d)] := by
        simp [insertUnique, hne]
      rw [e, ih]
      simp only [hne, Bool.not_false, if_pos, List.map_append, List.map_cons, List.map_nil]
      rw [dedupFirst, List.filter_filter, List.append_assoc]
      have epred : ∀ e : Device,
          (!(hasKey (acc ++ [(devKey d, d)]) (devKey e))) =
            ((!(hasKey acc (devKey e))) && (!(devKey e == devKey d))) := by
        intro e
        rw [hasKey_append_single, Bool.not_or, strBeq_comm]
      simp only [epred, List.singleton_append]
      have epred2 : (fun x : Device =>
          ((!(hasKey acc (devKey x))) && (!(devKey x == devKey d)))) =
          (fun x : Device => ((!(devKey x == devKey d)) && (!(hasKey acc (devKey x))))) := by
        funext x
        exact Bool.and_comm _ _
      rw [epred2]

/-- C3: replies sharing one truthy USN collapse to exactly one device — the
first-seen one — whatever the count and order; in general `_unique_devices`
equals first-seen deduplication in order of first sighting. -/
theorem dedup_by_usn (ds : List Device) (u : String) (d₀ : Device) (rest : List Device)
    (hds : ds = d₀ :: rest) (hu : u ≠ "") (hall : ∀ d ∈ ds, d.usn = u) :
    uniqueDevices ds = [d₀] ∧ ∀ es : List Device, uniqueDevices es = dedupFirst es := by
  have hgen : ∀ es : List Device, uniqueDevices es = dedupFirst es := by
    intro es
    unfold uniqueDevices
    rw [foldl_insertUnique es []]
    simp [hasKey]
  refine ⟨?_, hgen⟩
  subst hds
  rw [hgen, dedupFirst]
  have hfilter : (rest.filter fun e => !(devKey e == devKey d₀)) = [] := by
    apply List.filter_eq_nil_iff.mpr
    intro e he
    have h1 : devKey e = u := by
      have := hall e (List.mem_cons_of_mem _ he)
      simp [devKey, this, hu]
    have h2 : devKey d₀ = u := by
      have := hall d₀ (List.mem_cons_self _ _)
      simp [devKey, this, hu]
    simp [h1, h2]
  rw [hfilter]
  simp [dedupFirst]

/-- Witness for C3: three replies with one USN, two distinct hosts, collapse to
the first-seen reply. -/
theorem dedup_by_usn_witness :
    uniqueDevices
      [⟨"192.168.1.2", "http://a/d.xml", "uuid:abc::MS", "S1"⟩,
       ⟨"192.168.1.3", "http://b/d.xml", "uuid:abc::MS", "S2"⟩,
       ⟨"192.168.1.2", "http://a/d.xml", "uuid:abc::MS", "S1"⟩]
      = [⟨"192.168.1.2", "http://a/d.xml", "uuid:abc::MS", "S1"⟩] :=
  (dedup_by_usn _ "uuid:abc::MS" _ _ rfl (by decide) (by decide)).1

/-! ### C7: decoded titles are never empty -/

/-- The `title or "Unknown"` fallback never yields the empty string. -/
theorem titleOf_ne_nil (o : Option (List Char)) : titleOf o ≠ [] := by
  cases o with
  | none => decide
  | some t =>
    by_cases ht : t.isEmpty = true
    · show (if !t.isEmpty then t else chars "Unknown") ≠ []
      rw [ht, if_neg (by decide)]
      decide
    · have ht' : t.isEmpty = false := by simpa using ht
      show (if !t.isEmpty then t else chars "Unknown") ≠ []
      rw [ht']
      simp only [Bool.not_false, if_true]
      intro he
      rw [he] at ht'
      simp at ht'

/-- A falsy title value falls back to the sentinel. -/
theorem titleOf_default (o : Option (List Char)) (h : pyTruthy o = false) :
    titleOf o = chars "Unknown" := by
  cases o with
  | none => rfl
  | some t =>
    simp only [pyTruthy, Bool.not_eq_true'] at h
    show (if !t.isEmpty then t else chars "Unknown") = chars "Unknown"
    rw [h, if_neg (by decide)]

/-- The title of any decoded entry is the `titleOf` fallback applied to the
scanned title accumulator. -/
theorem parseEntry_title (e : DidlElem) (it : BrowsedItem) (h : parseEntry e = some it) :
    it.title = titleOf ((entryFields e.children).title) := by
  simp only [parseEntry] at h
  split at h
  · injection h with h'
    rw [← h']
    rfl
  · exact absurd h (by simp)

/-- C7: every decoded catalog entry has a nonempty title, and when the scanned
title is absent or empty the sentinel `"Unknown"` is used. -/
theorem title_never_empty :
    (∀ (doc : List DidlElem) (it : BrowsedItem), it ∈ parseEntries doc → it.title ≠ []) ∧
    (∀ (e : DidlElem) (it : BrowsedItem), parseEntry e = some it →
        pyTruthy (entryFields e.children).title = false → it.title = chars "Unknown") := by
  constructor
  · intro doc it hmem
    obtain ⟨e, -, hp⟩ := List.mem_filterMap.mp hmem
    rw [parseEntry_title e it hp]
    exact titleOf_ne_nil _
  · intro e it hp hfalse
    rw [parseEntry_title e it hp]
    exact titleOf_default _ hfalse

/-- Witness for C7 at a concrete title-less item element. -/
theorem title_never_empty_witness :
    noTitleItem.title ≠ [] ∧ noTitleItem.title = chars "Unknown" :=
  ⟨title_never_empty.1 [noTitleElem] noTitleItem (by decide),
   title_never_empty.2 noTitleElem noTitleItem (by decide) (by decide)⟩

/-! ### C8: non-numeric TotalMatches defaults to 0 without aborting -/

/-- The captured Result text never depends on the count logic. -/
theorem scan_fst (elems : List XNode) : ∀ (a : Option (List Char)) (b : Int),
    (List.foldl scanStep (a, b) elems).1 = List.foldl resStep a elems := by
  induction elems with
  | nil => intro a b; rfl
  | cons e rest ih =>
    intro a b
    simp only [List.foldl_cons]
    by_cases h1 : ((chars "result").isSuffixOf (toLowerL e.tag) && pyTruthy e.text) = true
    · rw [show scanStep (a, b) e = (e.text, b) from by simp [scanStep, h1],
        show resStep a e = e.text from by simp [resStep, h1]]
      exact ih _ _
    · have h1' := Bool.not_eq_true _ ▸ h1
      by_cases h2 : ((chars "totalmatches").isSuffixOf (toLowerL e.tag) && pyTruthy e.text) = true
      · rw [show resStep a e = a from by simp [resStep, h1]]
        cases hp : pyParseInt (e.text.getD []) with
        | some n =>
          rw [show scanStep (a, b) e = (a, n) from by simp [scanStep, h1, h2, hp]]
          exact ih _ _
        | none =>
          rw [show scanStep (a, b) e = (a, b) from by simp [scanStep, h1, h2, hp]]
          exact ih _ _
      · rw [show scanStep (a, b) e = (a, b) from by simp [scanStep, h1, h2],
          show resStep a e = a from by simp [resStep, h1]]
        exact ih _ _

/-- As long as every truthy totalmatches text fails integer parsing, the count
accumulator stays 0. -/
theorem scan_snd (elems : List XNode)
    (h : ∀ e ∈ elems, ((chars "totalmatches").isSuffixOf (toLowerL e.tag) && pyTruthy e.text) = true →
        pyParseInt (e.text.getD []) = none) :
    ∀ a : Option (List Char), (List.foldl scanStep (a, 0) elems).2 = 0 := by
  induction elems with
  | nil => intro a; rfl
  | cons e rest ih =>
    intro a
    have hrest : ∀ e' ∈ rest,
        ((chars "totalmatches").isSuffixOf (toLowerL e'.tag) && pyTruthy e'.text) = true →
        pyParseInt (e'.text.getD []) = none :=
      fun e' he' => h e' (List.mem_cons_of_mem _ he')
    simp only [List.foldl_cons]
    by_cases h1 : ((chars "result").isSuffixOf (toLowerL e.tag) && pyTruthy e.text) = true
    · rw [show scanStep (a, 0) e = (e.text, 0) from by simp [scanStep, h1]]
      exact ih hrest _
    · by_cases h2 : ((chars "totalmatches").isSuffixOf (toLowerL e.tag) && pyTruthy e.text) = true
      · have hp := h e (List.mem_cons_self _ _) h2
        rw [show scanStep (a, 0) e = (a, 0) from by simp [scanStep, h1, h2, hp]]
        exact ih hrest _
      · rw [show scanStep (a, 0) e = (a, 0) from by simp [scanStep, h1, h2]]
        exact ih hrest _

/-- C8: when every totalmatches text in the response is non-numeric, the decode
reports 0 matches, and the Result payload capture — the input of the entry
decode — is exactly what it is with the count logic ignored (no abort). -/
theorem totalmatches_default (elems : List XNode)
    (h : ∀ e ∈ elems, ((chars "totalmatches").isSuffixOf (toLowerL e.tag) && pyTruthy e.text) = true →
        pyParseInt (e.text.getD []) = none) :
    (scanSoap elems).2 = 0 ∧ (scanSoap elems).1 = List.foldl resStep none elems :=
  ⟨scan_snd elems h none, scan_fst elems none 0⟩

/-- Witness for C8 at a concrete response whose TotalMatches text is `"abc"`. -/
theorem totalmatches_default_witness :
    (scanSoap [⟨chars "TotalMatches", some (chars "abc")⟩,
               ⟨chars "Result", some (chars "<DIDL-Lite/>")⟩]).2 = 0 ∧
    (scanSoap [⟨chars "TotalMatches", some (chars "abc")⟩,
               ⟨chars "Result", some (chars "<DIDL-Lite/>")⟩]).1 =
      List.foldl resStep none
        [⟨chars "TotalMatches", some (chars "abc")⟩,
         ⟨chars "Result", some (chars "<DIDL-Lite/>")⟩] :=
  totalmatches_default _ (by decide)

/-! ### C2: XML escaping of interpolated SOAP arguments -/

/-- Escaping one character prepends well-escaped text. -/
theorem wellEscaped_escChar (c : Char) (r : List Char)
    (h : wellEscapedText r = true) : wellEscapedText (escChar c ++ r) = true := by
  by_cases h1 : c = '&'
  · subst h1
    show wellEscapedText ('&' :: 'a' :: 'm' :: 'p' :: ';' :: r) = true
    simp [wellEscapedText, entityTail, List.isPrefixOf, chars, h]
  · by_cases h2 : c = '<'
    · subst h2
      show wellEscapedText ('&' :: 'l' :: 't' :: ';' :: r) = true
      simp [wellEscapedText, entityTail, List.isPrefixOf, chars, h]
    · by_cases h3 : c = '>'
      · subst h3
        show wellEscapedText ('&' :: 'g' :: 't' :: ';' :: r) = true
        simp [wellEscapedText, entityTail, List.isPrefixOf, chars, h]
      · by_cases h4 : c = '"'
        · subst h4
          show wellEscapedText ('&' :: 'q' :: 'u' :: 'o' :: 't' :: ';' :: r) = true
          simp [wellEscapedText, entityTail, List.isPrefixOf, chars, h]
        · by_cases h5 : c = '\''
          · subst h5
            show wellEscapedText ('&' :: '#' :: 'x' :: '2' :: '7' :: ';' :: r) = true
            simp [wellEscapedText, entityTail, List.isPrefixOf, chars, h]
          · have he : escChar c = [c] := by
              simp [escChar, h1, h2, h3, h4, h5]
            rw [he]
            show wellEscapedText (c :: r) = true
            simp [wellEscapedText, h1, h2, h3, h4, h5, h]

/-- The output of `html.escape` is always well-escaped text. -/
theorem htmlEscape_wellEscaped (s : List Char) : wellEscapedText (htmlEscape s) = true := by
  induction s with
  | nil => rfl
  | cons c t ih =>
    have e : htmlEscape (c :: t) = escChar c ++ htmlEscape t := by
      simp [htmlEscape]
    rw [e]
    exact wellEscaped_escChar c _ ih

set_option maxRecDepth 20000 in
/-- C2 counterexample: the Browse envelope interpolates the ObjectID verbatim —
for the object id `a&b` the body carries the raw, non-well-formed text
`<ObjectID>a&b</ObjectID>`, although its escaped form differs. -/
theorem browse_unescaped_counterexample :
    hasSub (buildBrowseBody (chars "a&b") 0 100) (chars "<ObjectID>a&b</ObjectID>") = true ∧
    wellEscapedText (chars "a&b") = false ∧
    htmlEscape (chars "a&b") ≠ chars "a&b" := by
  refine ⟨by decide, by decide, by decide⟩

/-- C2 (amended): the Search criteria and the SetAVTransportURI URI/metadata are
interpolated through `html.escape`, whose output is always well-escaped XML
text; the Browse ObjectID, by contrast, is interpolated verbatim. -/
theorem soap_escaping :
    (∀ s : List Char, wellEscapedText (htmlEscape s) = true) ∧
    (∀ (cr : List Char) (si c : Int),
        buildSearchBody cr si c =
          searchPre ++ htmlEscape cr ++ searchMid1 ++ chars (toString si) ++
            searchMid2 ++ chars (toString c) ++ searchSuf) ∧
    (∀ uri md : List Char,
        buildSetUriBody uri md =
          setUriPre ++ htmlEscape uri ++ setUriMid ++ htmlEscape md ++ setUriSuf) ∧
    (∀ (oid : List Char) (si c : Int),
        buildBrowseBody oid si c =
          browsePre ++ oid ++ browseMid1 ++ chars (toString si) ++
            browseMid2 ++ chars (toString c) ++ browseSuf) :=
  ⟨htmlEscape_wellEscaped, fun _ _ _ => rfl, fun _ _ => rfl, fun _ _ _ => rfl⟩

/-! ### C5: base-URL computation -/

/-- takeWhile over an append whose first part satisfies the predicate. -/
theorem takeWhile_append_all (p : Char → Bool) (a b : List Char)
    (h : a.all p = true) : (a ++ b).takeWhile p = a ++ b.takeWhile p := by
  induction a with
  | nil => simp
  | cons c t ih =>
    simp only [List.all_cons, Bool.and_eq_true] at h
    simp [List.takeWhile_cons, h.1, ih h.2]

/-- dropWhile over an append whose first part satisfies the predicate. -/
theorem dropWhile_append_all (p : Char → Bool) (a b : List Char)
    (h : a.all p = true) : (a ++ b).dropWhile p = b.dropWhile p := by
  induction a with
  | nil => simp
  | cons c t ih =>
    simp only [List.all_cons, Bool.and_eq_true] at h
    simp [List.dropWhile_cons, h.1, ih h.2]

/-- Scheme splitting on a URL that literally opens with `http:`. -/
theorem splitScheme_http (r : List Char) :
    splitScheme (chars "http:" ++ r) = some (chars "http", r) := rfl

/-- `urlsplit` on `http://<netloc><rest>` with a clean netloc recovers the
three components. -/
theorem urlsplit_http (nl r : List Char)
    (h1 : nl.all (fun c => !stopChar c) = true) (h2 : restOkB r = true) :
    urlsplitL (chars "http://" ++ nl ++ r) = ⟨chars "http", nl, r⟩ := by
  have e : chars "http://" ++ nl ++ r = chars "http:" ++ ('/' :: '/' :: (nl ++ r)) := rfl
  have htake : (nl ++ r).takeWhile (fun c => !stopChar c) = nl := by
    rw [takeWhile_append_all _ _ _ h1]
    cases r with
    | nil => simp
    | cons c t =>
      simp only [restOkB] at h2
      simp [List.takeWhile_cons, h2]
  have hdrop : (nl ++ r).dropWhile (fun c => !stopChar c) = r := by
    rw [dropWhile_append_all _ _ _ h1]
    cases r with
    | nil => simp
    | cons c t =>
      simp only [restOkB] at h2
      simp [List.dropWhile_cons, h2]
  rw [e]
  unfold urlsplitL
  rw [splitScheme_http]
  simp only [List.take, List.drop, if_pos]
  rw [htake, hdrop]
  rfl

/-- Decomposition produced by `rstrip('/')`: the original string is the
stripped string followed by some run of slashes. -/
theorem rstripSlash_decomp (t : List Char) :
    ∃ k, t = rstripSlash t ++ List.replicate k '/' := by
  refine ⟨(t.reverse.takeWhile (fun c => c = '/')).length, ?_⟩
  conv_lhs => rw [← List.reverse_reverse t,
    ← List.takeWhile_append_dropWhile (p := fun c => c = '/') (l := t.reverse)]
  rw [List.reverse_append]
  unfold rstripSlash
  congr 1
  have : t.reverse.takeWhile (fun c => c = '/') =
      List.replicate (t.reverse.takeWhile (fun c => c = '/')).length '/' := by
    apply List.eq_replicate_of_mem
    intro b hb
    have := List.mem_takeWhile_imp hb
    exact of_decide_eq_true this
  conv_lhs => rw [this]
  rw [List.reverse_replicate]

/-- The head of a dropWhile never satisfies the predicate. -/
theorem head_dropWhile_false (p : Char → Bool) (l : List Char) :
    ∀ a, (l.dropWhile p).head? = some a → p a = false := by
  induction l with
  | nil => intro a h; simp at h
  | cons c t ih =>
    intro a h
    rw [List.dropWhile_cons] at h
    by_cases hc : p c = true
    · rw [if_pos hc] at h
      exact ih a h
    · rw [if_neg hc] at h
      simp only [List.head?_cons, Option.some.injEq] at h
      rw [← h]
      simpa using hc

/-- The stripped string has no trailing slash. -/
theorem rstripSlash_no_trailing (t : List Char) :
    (rstripSlash t).getLast? ≠ some '/' := by
  unfold rstripSlash
  rw [List.getLast?_reverse]
  intro h
  have := head_dropWhile_false (fun c => c = '/') t.reverse '/' h
  simp at this

/-- C5: with no URLBase the base URL is `scheme://authority` of the location;
with a truthy URLBase text the base URL is that text with its trailing slashes
stripped, used verbatim. -/
theorem base_url_rule (nl r t : List Char) (ub : Option (List Char))
    (h1 : nl.all (fun c => !stopChar c) = true) (h2 : restOkB r = true) :
    computeBaseUrl (chars "http://" ++ nl ++ r) none = chars "http://" ++ nl ∧
    (ub = some t → (!t.isEmpty) = true →
      computeBaseUrl (chars "http://" ++ nl ++ r) ub = rstripSlash t ∧
      (∃ k, t = rstripSlash t ++ List.replicate k '/') ∧
      (rstripSlash t).getLast? ≠ some '/') := by
  have hsplit := urlsplit_http nl r h1 h2
  constructor
  · show (let params := urlsplitL (chars "http://" ++ nl ++ r);
      params.scheme ++ chars "://" ++ params.netloc) = chars "http://" ++ nl
    rw [hsplit]
    rfl
  · intro hub ht
    subst hub
    refine ⟨?_, rstripSlash_decomp t, rstripSlash_no_trailing t⟩
    show (if !t.isEmpty then rstripSlash t
          else (let params := urlsplitL (chars "http://" ++ nl ++ r);
            params.scheme ++ chars "://" ++ params.netloc)) = rstripSlash t
    rw [ht, if_pos rfl]

/-- Witness for C5 at a concrete location and URLBase. -/
theorem base_url_rule_witness :
    computeBaseUrl (chars "http://" ++ chars "192.168.1.7:8200" ++ chars "/rootDesc.xml") none
      = chars "http://" ++ chars "192.168.1.7:8200" ∧
    computeBaseUrl (chars "http://" ++ chars "192.168.1.7:8200" ++ chars "/rootDesc.xml")
        (some (chars "http://192.168.1.7:8200/base/"))
      = rstripSlash (chars "http://192.168.1.7:8200/base/") :=
  ⟨(base_url_rule (chars "192.168.1.7:8200") (chars "/rootDesc.xml")
      (chars "http://192.168.1.7:8200/base/") none (by decide) (by decide)).1,
   ((base_url_rule (chars "192.168.1.7:8200") (chars "/rootDesc.xml")
      (chars "http://192.168.1.7:8200/base/") (some (chars "http://192.168.1.7:8200/base/"))
      (by decide) (by decide)).2 rfl (by decide)).1⟩

/-! ### C10: SetAVTransportURI with no AVTransport service -/

/-- The service fold never touches the AVTransport slot of the accumulator when
no service classifies as AVTransport. -/
theorem procService_preserves_av (base : List Char) (svcs : List SvcElem)
    (h : (svcs.all fun svc =>
      match svcFields svc with
      | (some stText, some _) => !(hasSub stText (chars "AVTransport"))
      | _ => true) = true) :
    ∀ acc : Option (List Char) × Option (List Char),
      (List.foldl (procService base) acc svcs).2 = acc.2 := by
  induction svcs with
  | nil => intro acc; rfl
  | cons svc rest ih =>
    simp only [List.all_cons, Bool.and_eq_true] at h
    intro acc
    simp only [List.foldl_cons]
    rw [ih h.2]
    rcases hsf : svcFields svc with ⟨st?, ct?⟩
    cases st? with
    | none =>
      simp [procService, hsf]
    | some stText =>
      cases ct? with
      | none =>
        simp [procService, hsf]
      | some ctrlText =>
        have hna : hasSub stText (chars "AVTransport") = false := by
          rw [hsf] at h
          simpa using h.1
        by_cases hcd : hasSub stText (chars "ContentDirectory") = true
        · simp [procService, hsf, hcd]
        · simp [procService, hsf, hcd, hna]

/-- Resolution against an AVTransport-less document leaves the AVTransport
endpoint as it was. -/
theorem resolve_av_unchanged (st : ClientState) (doc : Description)
    (h : noAvSvc doc = true) :
    ((resolveDesc st doc).1).avTransportUrl = st.avTransportUrl := by
  unfold resolveDesc
  by_cases hc : pyTruthy st.contentDirectoryUrl = true
  · rw [if_pos hc]
  · rw [if_neg hc]
    show (applyDoc st doc).avTransportUrl = st.avTransportUrl
    unfold applyDoc
    exact procService_preserves_av _ _ h _

/-- C10 counterexample: against a ContentDirectory-only document, a fresh
resolver's failed SetAVTransportURI call raises as claimed, but the resolver's
ContentDirectory endpoint state *does* change during the failed call. -/
theorem set_uri_counterexample :
    (setAvTransportUri (mkClient sampleLoc) cdOnlyDoc (chars "http://u/a.mp3") []).2
      = Except.error (chars "No AVTransport service found on device.") ∧
    (setAvTransportUri (mkClient sampleLoc) cdOnlyDoc (chars "http://u/a.mp3") []).1.contentDirectoryUrl
      ≠ (mkClient sampleLoc).contentDirectoryUrl := by
  refine ⟨rfl, by decide⟩

/-- C10 (amended): when the lazily triggered resolution finds no AVTransport
service, the call raises before building or sending any SOAP request, and the
AVTransport endpoint itself is unchanged (other description-derived state, such
as the ContentDirectory endpoint, may be populated by the resolution). -/
theorem set_uri_no_transport (st : ClientState) (doc : Description) (uri metadata : List Char)
    (h0 : pyTruthy st.avTransportUrl = false) (h1 : noAvSvc doc = true) :
    (setAvTransportUri st doc uri metadata).2
      = Except.error (chars "No AVTransport service found on device.") ∧
    (setAvTransportUri st doc uri metadata).1.avTransportUrl = st.avTransportUrl := by
  have h2 : (lazyResolveAv st doc).avTransportUrl = st.avTransportUrl := by
    unfold lazyResolveAv
    rw [h0]
    simp only [Bool.false_eq_true, if_false]
    exact resolve_av_unchanged st doc h1
  have hcond : pyTruthy ((lazyResolveAv st doc).avTransportUrl) = false := by
    rw [h2]
    exact h0
  unfold setAvTransportUri
  rw [hcond]
  simp [h2]

/-- Witness for C10 at a fresh client and the ContentDirectory-only document. -/
theorem set_uri_no_transport_witness :
    (setAvTransportUri (mkClient sampleLoc) cdOnlyDoc (chars "http://u/b.mp3") []).2
      = Except.error (chars "No AVTransport service found on device.") ∧
    (setAvTransportUri (mkClient sampleLoc) cdOnlyDoc (chars "http://u/b.mp3") []).1.avTransportUrl
      = (mkClient sampleLoc).avTransportUrl :=
  set_uri_no_transport _ _ _ _ (by decide) (by decide)

/-! ### C1: SSDP LOCATION address correction -/

/-- All-quantified boolean facts transfer along pointwise implications. -/
theorem all_of_all_imp (p q : Char → Bool) (l : List Char)
    (h : l.all p = true) (himp : ∀ c, p c = true → q c = true) : l.all q = true := by
  rw [List.all_eq_true] at h ⊢
  exact fun c hc => himp c (h c hc)

/-- A list is a list-prefix of itself followed by anything. -/
theorem isPrefixOf_append_self (a b : List Char) : a.isPrefixOf (a ++ b) = true := by
  induction a with
  | nil => simp [List.isPrefixOf]
  | cons c t ih => simp [List.isPrefixOf, ih]

/-- A positive skip counter just drops characters before scanning resumes. -/
theorem replaceGo_skip_consume (o : Char) (ot new : List Char) :
    ∀ (rest : List Char) (k : Nat),
      replaceGo o ot new k rest = replaceGo o ot new 0 (rest.drop k) := by
  intro rest
  induction rest with
  | nil =>
    intro k
    cases k with
    | zero => rfl
    | succ k => rfl
  | cons c rest ih =>
    intro k
    cases k with
    | zero => rfl
    | succ k =>
      show replaceGo o ot new k rest = replaceGo o ot new 0 ((c :: rest).drop (k + 1))
      rw [ih k]
      rfl

/-- Replacement starting exactly at an occurrence substitutes it and goes on. -/
theorem pyReplace_head_match (old new t : List Char) (h : old ≠ []) :
    pyReplace (old ++ t) old new = new ++ pyReplace t old new := by
  cases old with
  | nil => exact absurd rfl h
  | cons o ot =>
    show replaceGo o ot new 0 ((o :: ot) ++ t) = new ++ replaceGo o ot new 0 t
    have hpre : (o :: ot).isPrefixOf (o :: (ot ++ t)) = true := by
      have := isPrefixOf_append_self (o :: ot) t
      rwa [List.cons_append] at this
    rw [List.cons_append, replaceGo, if_pos hpre, replaceGo_skip_consume, List.drop_left]

/-- Replacement over occurrence-free text is the identity. -/
theorem pyReplace_no_match (old new : List Char) (hne : old ≠ []) :
    ∀ s, hasSub s old = false → pyReplace s old new = s := by
  cases old with
  | nil => exact absurd rfl hne
  | cons o ot =>
    intro s
    show hasSub s (o :: ot) = false → replaceGo o ot new 0 s = s
    induction s with
    | nil => intro _; rfl
    | cons c rest ih =>
      intro h
      have h' : (o :: ot).isPrefixOf (c :: rest) = false ∧ hasSub rest (o :: ot) = false := by
        simpa [hasSub] using h
      rw [replaceGo, if_neg (by simp [h'.1]), ih h'.2]

/-- Replacement skips over a region in which no occurrence starts. -/
theorem pyReplace_skip (old new : List Char) (hne : old ≠ []) :
    ∀ (p t : List Char), noMatchBefore old (p ++ t) p.length = true →
      pyReplace (p ++ t) old new = p ++ pyReplace t old new := by
  cases old with
  | nil => exact absurd rfl hne
  | cons o ot =>
    intro p
    induction p with
    | nil => intro t _; rfl
    | cons c p' ih =>
      intro t h
      have h' : (o :: ot).isPrefixOf (c :: (p' ++ t)) = false ∧
          noMatchBefore (o :: ot) (p' ++ t) p'.length = true := by
        simpa [noMatchBefore] using h
      show replaceGo o ot new 0 (c :: (p' ++ t)) = (c :: p') ++ pyReplace t (o :: ot) new
      rw [replaceGo, if_neg (by simp [h'.1])]
      have e := ih t h'.2
      rw [show pyReplace (p' ++ t) (o :: ot) new
          = replaceGo o ot new 0 (p' ++ t) from rfl] at e
      rw [e]
      rfl

/-- Folding the rpartition scan over at-free text appends it verbatim. -/
theorem foldl_afterLastAt (l : List Char) (h : l.all (fun c => !(c = '@')) = true) :
    ∀ acc, l.foldl (fun acc c => if c = '@' then [] else acc ++ [c]) acc = acc ++ l := by
  induction l with
  | nil => intro acc; simp
  | cons c t ih =>
    simp only [List.all_cons, Bool.and_eq_true] at h
    intro acc
    have hc : ¬(c = '@') := by simpa using h.1
    simp only [List.foldl_cons, if_neg hc]
    rw [ih h.2]
    simp

/-- Userinfo stripping is the identity on at-free netlocs. -/
theorem afterLastAt_no_at (l : List Char) (h : l.all (fun c => !(c = '@')) = true) :
    afterLastAt l = l := by
  unfold afterLastAt
  rw [foldl_afterLastAt l h]
  rfl

/-- Port stripping passes over a colon-free first part. -/
theorem beforeColon_append (a b : List Char) (h : a.all (fun c => !(c = ':')) = true) :
    beforeColon (a ++ b) = a ++ beforeColon b := by
  induction a with
  | nil => simp
  | cons c t ih =>
    simp only [List.all_cons, Bool.and_eq_true] at h
    have hc : ¬(c = ':') := by simpa using h.1
    simp [beforeColon, hc, ih h.2]

/-- Lowercasing fixes a list whose characters are each fixed by it. -/
theorem toLowerL_fixed (l : List Char) (h : l.all (fun c => (c.toLower = c)) = true) :
    toLowerL l = l := by
  induction l with
  | nil => rfl
  | cons c t ih =>
    simp only [List.all_cons, Bool.and_eq_true] at h
    have hc : c.toLower = c := of_decide_eq_true h.1
    have h2 := ih h.2
    simp only [toLowerL, List.map_cons] at h2 ⊢
    rw [hc, h2]

/-- A clean hostname-plus-port netloc consists of non-terminator characters. -/
theorem netloc_ok (hn ps : List Char) (hh : hostOkB hn = true) (hp : portOkB ps = true) :
    (hn ++ ps).all (fun c => !stopChar c) = true := by
  have hh' : hn.all (fun c =>
      !stopChar c && !(c = '@') && !(c = ':') && (c.toLower = c)) = true := by
    have := hh
    simp only [hostOkB, Bool.and_eq_true] at this
    exact this.2
  rw [List.all_append, Bool.and_eq_true]
  refine ⟨?_, ?_⟩
  · exact all_of_all_imp _ _ _ hh' (by
      intro c hc
      simp only [Bool.and_eq_true] at hc
      exact hc.1.1.1)
  · cases ps with
    | nil => rfl
    | cons c ds =>
      simp only [portOkB, Bool.and_eq_true] at hp
      have hc : c = ':' := of_decide_eq_true hp.1
      subst hc
      rw [List.all_cons, Bool.and_eq_true]
      refine ⟨by decide, ?_⟩
      exact all_of_all_imp _ _ _ hp.2 (by
        intro d hd
        simp only [Bool.and_eq_true] at hd
        exact hd.1.1)

/-- The `.hostname` of a clean `host ++ port` netloc is the host part. -/
theorem hostnameOf_netloc (hn ps : List Char) (hh : hostOkB hn = true) (hp : portOkB ps = true) :
    hostnameOf (hn ++ ps) = some hn := by
  have hsplit := hh
  simp only [hostOkB, Bool.and_eq_true] at hsplit
  obtain ⟨hne, hall⟩ := hsplit
  have hnoAt : (hn ++ ps).all (fun c => !(c = '@')) = true := by
    rw [List.all_append, Bool.and_eq_true]
    refine ⟨?_, ?_⟩
    · exact all_of_all_imp _ _ _ hall (by
        intro c hc
        simp only [Bool.and_eq_true] at hc
        exact hc.1.1.2)
    · cases ps with
      | nil => rfl
      | cons c ds =>
        simp only [portOkB, Bool.and_eq_true] at hp
        have hc : c = ':' := of_decide_eq_true hp.1
        subst hc
        rw [List.all_cons, Bool.and_eq_true]
        refine ⟨by decide, ?_⟩
        exact all_of_all_imp _ _ _ hp.2 (by
          intro d hd
          simp only [Bool.and_eq_true] at hd
          exact hd.1.2)
  have hnoColon : hn.all (fun c => !(c = ':')) = true :=
    all_of_all_imp _ _ _ hall (by
      intro c hc
      simp only [Bool.and_eq_true] at hc
      exact hc.1.2)
  have hlower : hn.all (fun c => (c.toLower = c)) = true :=
    all_of_all_imp _ _ _ hall (by
      intro c hc
      simp only [Bool.and_eq_true] at hc
      exact hc.2)
  have hbc : beforeColon (hn ++ ps) = hn := by
    rw [beforeColon_append _ _ hnoColon]
    cases ps with
    | nil => simp [beforeColon]
    | cons c ds =>
      simp only [portOkB, Bool.and_eq_true] at hp
      have hc : c = ':' := of_decide_eq_true hp.1
      subst hc
      simp [beforeColon]
  unfold hostnameOf
  rw [afterLastAt_no_at _ hnoAt, hbc, toLowerL_fixed _ hlower]
  have hne' : hn.isEmpty = false := by simpa using hne
  rw [if_neg (by simp [hne'])]

/-- C1 counterexample: for the reply LOCATION
`http://10.0.0.5/d?cb=http://10.0.0.5/x` from source `192.168.1.10`, the
embedded hostname differs from the source address, yet the rewrite also edits
the query string — the non-authority components are not preserved. -/
theorem location_rewrite_counterexample :
    hostnameOf (urlsplitL (chars "http://10.0.0.5/d?cb=http://10.0.0.5/x")).netloc
      = some (chars "10.0.0.5") ∧
    chars "10.0.0.5" ≠ chars "192.168.1.10" ∧
    rewriteLocation (chars "http://10.0.0.5/d?cb=http://10.0.0.5/x") (chars "192.168.1.10")
      = chars "http://192.168.1.10/d?cb=http://192.168.1.10/x" ∧
    (urlsplitL (rewriteLocation (chars "http://10.0.0.5/d?cb=http://10.0.0.5/x")
        (chars "192.168.1.10"))).rest
      ≠ (urlsplitL (chars "http://10.0.0.5/d?cb=http://10.0.0.5/x")).rest := by
  refine ⟨by decide, by decide, by decide, by decide⟩

/-- C1 (amended): when the location is `http://<host><port><rest>` with a clean
lowercase hostname differing from the clean source address, and the netloc
string occurs neither inside the leading `http://` region nor in the remainder
(nor the hostname inside the port), the rewrite yields exactly the location
with the hostname replaced by the source address: scheme, port and remainder
are preserved and the new hostname is the source address. -/
theorem location_rewrite (hn ps r host : List Char)
    (hh : hostOkB hn = true) (hp : portOkB ps = true) (hr : restOkB r = true)
    (hhost : hostOkB host = true) (hne : hn ≠ host)
    (h1 : noMatchBefore (hn ++ ps) (chars "http://" ++ (hn ++ ps) ++ r) 7 = true)
    (h2 : hasSub r (hn ++ ps) = false)
    (h3 : hasSub ps hn = false) :
    rewriteLocation (chars "http://" ++ (hn ++ ps) ++ r) host
      = chars "http://" ++ (host ++ ps) ++ r ∧
    urlsplitL (chars "http://" ++ (host ++ ps) ++ r) = ⟨chars "http", host ++ ps, r⟩ ∧
    hostnameOf (host ++ ps) = some host := by
  have hsplit1 : urlsplitL (chars "http://" ++ (hn ++ ps) ++ r)
      = ⟨chars "http", hn ++ ps, r⟩ :=
    urlsplit_http _ _ (netloc_ok hn ps hh hp) hr
  have hhn1 : hostnameOf (hn ++ ps) = some hn := hostnameOf_netloc hn ps hh hp
  have hnnil : hn ≠ [] := by
    intro he
    rw [he] at hh
    simp [hostOkB] at hh
  have hnpnil : hn ++ ps ≠ [] := by
    intro he
    exact hnnil (List.append_eq_nil.mp he).1
  have einner : pyReplace (hn ++ ps) hn host = host ++ ps := by
    rw [pyReplace_head_match hn host ps hnnil, pyReplace_no_match hn host hnnil ps h3]
  have h1' : noMatchBefore (hn ++ ps) (chars "http://" ++ ((hn ++ ps) ++ r)) 7 = true := by
    rw [← List.append_assoc]
    exact h1
  have eouter : pyReplace (chars "http://" ++ (hn ++ ps) ++ r) (hn ++ ps) (host ++ ps)
      = chars "http://" ++ (host ++ ps) ++ r := by
    rw [List.append_assoc (chars "http://") (hn ++ ps) r,
      List.append_assoc (chars "http://") (host ++ ps) r]
    rw [pyReplace_skip (hn ++ ps) (host ++ ps) hnpnil (chars "http://") ((hn ++ ps) ++ r) h1']
    rw [pyReplace_head_match (hn ++ ps) (host ++ ps) r hnpnil]
    rw [pyReplace_no_match (hn ++ ps) (host ++ ps) hnpnil r h2]
  refine ⟨?_, urlsplit_http _ _ (netloc_ok host ps hhost hp) hr,
    hostnameOf_netloc host ps hhost hp⟩
  unfold rewriteLocation
  rw [show (urlsplitL (chars "http://" ++ (hn ++ ps) ++ r)).netloc = hn ++ ps from by
    rw [hsplit1]]
  rw [hhn1]
  show (if hn ≠ host then
      pyReplace (chars "http://" ++ (hn ++ ps) ++ r) (hn ++ ps)
        (pyReplace (hn ++ ps) hn host)
    else chars "http://" ++ (hn ++ ps) ++ r) = chars "http://" ++ (host ++ ps) ++ r
  rw [if_pos hne, einner, eouter]

/-- Witness for C1 at a concrete containerized-style announcement. -/
theorem location_rewrite_witness :
    rewriteLocation
        (chars "http://" ++ (chars "internal.lan" ++ chars ":8080") ++ chars "/desc.xml")
        (chars "192.168.1.10")
      = chars "http://" ++ (chars "192.168.1.10" ++ chars ":8080") ++ chars "/desc.xml" ∧
    urlsplitL (chars "http://" ++ (chars "192.168.1.10" ++ chars ":8080") ++ chars "/desc.xml")
      = ⟨chars "http", chars "192.168.1.10" ++ chars ":8080", chars "/desc.xml"⟩ ∧
    hostnameOf (chars "192.168.1.10" ++ chars ":8080") = some (chars "192.168.1.10") :=
  location_rewrite (chars "internal.lan") (chars ":8080") (chars "/desc.xml")
    (chars "192.168.1.10") (by decide) (by decide) (by decide) (by decide) (by decide)
    (by decide) (by decide) (by decide)

end StreamMagic
